import Mathlib

/-!
Shallow embedding of the eduid-IdP protocol core (cache.py, loginstate.py,
login.py, logout.py) and proofs about the claims of its specification.

Conventions of the embedding:
 - Python `int` timestamps and TTLs become `Int`.
 - A Python `dict` keyed by strings becomes an association list
   `List (String × β)`; `dictGet`, `dictSet` and `dictDelete` mirror
   `d.get(k)`, `d[k] = v` and `del d[k]`.
 - The `collections.deque` of `(timestamp, key)` age records becomes a
   `List (Int × String)`: `append` is `++ [x]`, `popleft` is head/tail,
   `appendleft` is cons.
 - Functions that can raise return `Except IdPError` / `Option`; mutation
   becomes explicit state passing.
 - The default `NoOpLock` always grants the lock, so `purge_expired`'s
   non-blocking acquire always succeeds and the purge pass always runs.
-/

/-- `k in d` on a Python string-keyed dict. -/
def dictHasKey {β : Type} (k : String) : List (String × β) → Bool
  | [] => false
  | e :: rest => e.1 = k || dictHasKey k rest

/-- `d.get(k)` on a Python string-keyed dict (`None` on a missing key). -/
def dictGet {β : Type} (k : String) : List (String × β) → Option β
  | [] => none
  | e :: rest => if e.1 = k then some e.2 else dictGet k rest

/-- Replace the value stored at key `k` (helper for `dictSet`). -/
def dictReplace {β : Type} (k : String) (v : β) : List (String × β) → List (String × β)
  | [] => []
  | e :: rest => (if e.1 = k then (k, v) else e) :: dictReplace k v rest

/-- `d[k] = v` on a Python dict: overwrite the slot of an existing key in
place, otherwise append a new entry (Python dicts keep insertion order). -/
def dictSet {β : Type} (k : String) (v : β) (l : List (String × β)) : List (String × β) :=
  if dictHasKey k l then dictReplace k v l else l ++ [(k, v)]

/-- `del d[k]` on a Python dict (keys are unique in an actual dict, so
removing every entry with key `k` agrees with removing the single slot). -/
def dictDelete {β : Type} (k : String) : List (String × β) → List (String × β)
  | [] => []
  | e :: rest => if e.1 = k then dictDelete k rest else e :: dictDelete k rest

theorem dictGet_replace_self {β : Type} (k : String) (v : β) (l : List (String × β))
    (h : dictHasKey k l = true) : dictGet k (dictReplace k v l) = some v := by
  induction l with
  | nil => simp [dictHasKey] at h
  | cons e rest ih =>
    by_cases he : e.1 = k
    · simp [dictReplace, dictGet, he]
    · simp only [dictHasKey, Bool.or_eq_true, decide_eq_true_eq] at h
      rcases h with h | h
      · exact absurd h he
      · simp [dictReplace, dictGet, he, ih h]

theorem dictGet_append_single {β : Type} (k : String) (v : β) (l : List (String × β))
    (h : dictHasKey k l = false) : dictGet k (l ++ [(k, v)]) = some v := by
  induction l with
  | nil => simp [dictGet]
  | cons e rest ih =>
    simp only [dictHasKey, Bool.or_eq_false_iff, decide_eq_false_iff_not] at h
    simp [dictGet, h.1, ih h.2]

theorem dictGet_set_self {β : Type} (k : String) (v : β) (l : List (String × β)) :
    dictGet k (dictSet k v l) = some v := by
  unfold dictSet
  by_cases h : dictHasKey k l = true
  · simp [h, dictGet_replace_self k v l h]
  · simp only [Bool.not_eq_true] at h
    simp [h, dictGet_append_single k v l h]

theorem dictGet_replace_ne {β : Type} (k k' : String) (v : β) (l : List (String × β))
    (h : k' ≠ k) : dictGet k' (dictReplace k v l) = dictGet k' l := by
  have h1 : (k : String) ≠ k' := fun hh => h hh.symm
  induction l with
  | nil => rfl
  | cons e rest ih =>
    by_cases he : e.1 = k
    · have h2 : e.1 ≠ k' := by rw [he]; exact h1
      simp only [dictReplace, if_pos he, dictGet, if_neg h1, if_neg h2]
      exact ih
    · simp only [dictReplace, if_neg he, dictGet]
      rw [ih]

theorem dictGet_append_ne {β : Type} (k k' : String) (v : β) (l : List (String × β))
    (h : k' ≠ k) : dictGet k' (l ++ [(k, v)]) = dictGet k' l := by
  have h1 : (k : String) ≠ k' := fun hh => h hh.symm
  induction l with
  | nil => simp [dictGet, if_neg h1]
  | cons e rest ih =>
    simp only [List.cons_append, dictGet, List.append_eq]
    rw [ih]

theorem dictGet_set_ne {β : Type} (k k' : String) (v : β) (l : List (String × β))
    (h : k' ≠ k) : dictGet k' (dictSet k v l) = dictGet k' l := by
  unfold dictSet
  split
  · exact dictGet_replace_ne k k' v l h
  · exact dictGet_append_ne k k' v l h

theorem dictGet_delete_self {β : Type} (k : String) (l : List (String × β)) :
    dictGet k (dictDelete k l) = none := by
  induction l with
  | nil => rfl
  | cons e rest ih =>
    by_cases he : e.1 = k
    · simp only [dictDelete, if_pos he]
      exact ih
    · simp only [dictDelete, if_neg he, dictGet, if_neg he]
      exact ih

theorem dictGet_delete_ne {β : Type} (k k' : String) (l : List (String × β))
    (h : k' ≠ k) : dictGet k' (dictDelete k l) = dictGet k' l := by
  induction l with
  | nil => rfl
  | cons e rest ih =>
    by_cases he : e.1 = k
    · have h2 : e.1 ≠ k' := by rw [he]; exact fun hh => h hh.symm
      simp only [dictDelete, if_pos he, dictGet, if_neg h2]
      exact ih
    · simp only [dictDelete, if_neg he, dictGet]
      rw [ih]

theorem dictGet_delete_none {β : Type} (k k' : String) (l : List (String × β))
    (h : dictGet k' l = none) : dictGet k' (dictDelete k l) = none := by
  by_cases hk : k' = k
  · subst hk; exact dictGet_delete_self k' l
  · rw [dictGet_delete_ne k k' l hk]; exact h

/-! ### ExpiringCache (src/eduid_idp/cache.py) -/

/-- State of an `ExpiringCache`: `_data` dict, `_ages` deque of
`(timestamp, key)` records (oldest first) and the `_ttl` from `__init__`. -/
structure CacheState (β : Type) where
  data : List (String × β)
  ages : List (Int × String)
  ttl : Int
deriving DecidableEq

namespace ExpiringCache

/-- A freshly constructed `ExpiringCache(name, logger, ttl)`. -/
def empty (β : Type) (ttl : Int) : CacheState β :=
  { data := [], ages := [], ttl := ttl }

/-- `ExpiringCache.get(key)`: `return self._data.get(key)`. -/
def get {β : Type} (s : CacheState β) (key : String) : Option β :=
  dictGet key s.data

/-- `ExpiringCache.delete(key)`: `del self._data[key]` and `return True`;
on `KeyError` the failure is logged and the function falls off the end,
returning Python `None` (modelled as `none`, versus `some true`). -/
def delete {β : Type} (s : CacheState β) (key : String) : Option Bool × CacheState β :=
  if (dictGet key s.data).isSome then
    (some true, { s with data := dictDelete key s.data })
  else
    (none, s)

/-- The purge loop of `ExpiringCache.purge_expired(timestamp)`: pop age
records from the left; a record with `_exp_ts > timestamp` is reinserted
at the left and the loop stops; otherwise the key is deleted and the loop
continues (an empty deque also stops the loop). -/
def purgeGo {β : Type} (timestamp : Int) :
    List (Int × String) → List (String × β) → List (Int × String) × List (String × β)
  | [], data => ([], data)
  | (ts, key) :: rest, data =>
    if ts > timestamp then ((ts, key) :: rest, data)
    else purgeGo timestamp rest (dictDelete key data)

/-- `ExpiringCache.purge_expired(timestamp)` under the default `NoOpLock`
(the non-blocking acquire always succeeds, so purging always runs). -/
def purge_expired {β : Type} (s : CacheState β) (timestamp : Int) : CacheState β :=
  let r := purgeGo timestamp s.ages s.data
  { s with ages := r.1, data := r.2 }

/-- `ExpiringCache.add(key, info, now)`: store the value, append an age
record stamped `now`, then `purge_expired(now - ttl)`. -/
def add {β : Type} (s : CacheState β) (key : String) (info : β) (now : Int) : CacheState β :=
  purge_expired { s with data := dictSet key info s.data, ages := s.ages ++ [(now, key)] } (now - s.ttl)

theorem purgeGo_ages_eq_dropWhile {β : Type} (timestamp : Int) (ages : List (Int × String))
    (data : List (String × β)) :
    (purgeGo timestamp ages data).1 = ages.dropWhile (fun e => decide (e.1 ≤ timestamp)) := by
  induction ages generalizing data with
  | nil => rfl
  | cons e rest ih =>
    cases e with
    | mk ts key =>
      by_cases hts : ts > timestamp
      · have hd : decide ((ts, key).1 ≤ timestamp) = false := by
          simp only [decide_eq_false_iff_not]; omega
        simp only [purgeGo, if_pos hts, List.dropWhile, hd]
      · have hd : decide ((ts, key).1 ≤ timestamp) = true := by
          simp only [decide_eq_true_eq]; omega
        simp only [purgeGo, if_neg hts, List.dropWhile, hd]
        exact ih _

theorem purgeGo_data_preserves_none {β : Type} (timestamp : Int) (ages : List (Int × String))
    (data : List (String × β)) (k : String) (h : dictGet k data = none) :
    dictGet k (purgeGo timestamp ages data).2 = none := by
  induction ages generalizing data with
  | nil => exact h
  | cons e rest ih =>
    cases e with
    | mk ts key =>
      by_cases hts : ts > timestamp
      · simp only [purgeGo, if_pos hts]; exact h
      · simp only [purgeGo, if_neg hts]
        exact ih _ (dictGet_delete_none key k data h)

theorem purgeGo_data_untouched {β : Type} (timestamp : Int) (ages : List (Int × String))
    (data : List (String × β)) (k : String)
    (h : k ∉ (ages.takeWhile (fun e => decide (e.1 ≤ timestamp))).map Prod.snd) :
    dictGet k (purgeGo timestamp ages data).2 = dictGet k data := by
  induction ages generalizing data with
  | nil => rfl
  | cons e rest ih =>
    cases e with
    | mk ts key =>
      by_cases hts : ts > timestamp
      · simp only [purgeGo, if_pos hts]
      · have hd : decide ((ts, key).1 ≤ timestamp) = true := by
          simp only [decide_eq_true_eq]; omega
        simp only [List.takeWhile, hd, List.map_cons, List.mem_cons, not_or] at h
        simp only [purgeGo, if_neg hts]
        rw [ih _ h.2]
        exact dictGet_delete_ne key k data h.1

theorem purgeGo_some_inv {β : Type} (timestamp : Int) (ages : List (Int × String))
    (data : List (String × β)) (k : String) (v : β)
    (h : dictGet k (purgeGo timestamp ages data).2 = some v) :
    dictGet k data = some v ∧
      ∀ ts : Int, (ts, k) ∈ ages → (ts, k) ∈ (purgeGo timestamp ages data).1 := by
  induction ages generalizing data with
  | nil =>
    refine ⟨h, ?_⟩
    intro ts hmem
    simp at hmem
  | cons e rest ih =>
    cases e with
    | mk ts0 k0 =>
      by_cases hts : ts0 > timestamp
      · simp only [purgeGo, if_pos hts] at h ⊢
        exact ⟨h, fun ts hmem => hmem⟩
      · simp only [purgeGo, if_neg hts] at h ⊢
        obtain ⟨h1, h2⟩ := ih _ h
        have hk0 : k ≠ k0 := by
          intro hkk
          subst hkk
          rw [dictGet_delete_self k data] at h1
          exact Option.noConfusion h1
        rw [dictGet_delete_ne k0 k data hk0] at h1
        refine ⟨h1, ?_⟩
        intro ts hmem
        rcases List.mem_cons.mp hmem with hhd | htl
        · cases hhd
          exact absurd rfl hk0
        · exact h2 ts htl

end ExpiringCache

/-! ### Sequences of `add` calls (for the cache TTL and purge-order claims) -/

/-- One invocation `cache.add(key, info, now)` with an injected timestamp. -/
structure Call (β : Type) where
  key : String
  info : β
  now : Int

/-- The age record `(now, key)` that `add` appends for a call. -/
def callAge {β : Type} (c : Call β) : Int × String := (c.now, c.key)

/-- Replay a sequence of `add` calls against a cache state. -/
def runAdds {β : Type} (s : CacheState β) : List (Call β) → CacheState β
  | [] => s
  | c :: rest => runAdds (ExpiringCache.add s c.key c.info c.now) rest

theorem runAdds_append {β : Type} (s : CacheState β) (a b : List (Call β)) :
    runAdds s (a ++ b) = runAdds (runAdds s a) b := by
  induction a generalizing s with
  | nil => rfl
  | cons c rest ih => simp only [List.cons_append, runAdds, List.append_eq, ih]

theorem purge_expired_ttl {β : Type} (s : CacheState β) (c : Int) :
    (ExpiringCache.purge_expired s c).ttl = s.ttl := rfl

theorem add_ttl {β : Type} (s : CacheState β) (k : String) (v : β) (now : Int) :
    (ExpiringCache.add s k v now).ttl = s.ttl := rfl

theorem runAdds_ttl {β : Type} (s : CacheState β) (calls : List (Call β)) :
    (runAdds s calls).ttl = s.ttl := by
  induction calls generalizing s with
  | nil => rfl
  | cons c rest ih => rw [runAdds, ih, add_ttl]

/-- Invariant tying a cache state to the `add` calls that produced it:
the age deque is a subsequence of the appended age records, and every key
present in the data dict still has an age record. -/
def CacheInv {β : Type} (past : List (Call β)) (s : CacheState β) : Prop :=
  s.ages.Sublist (past.map callAge) ∧
    ∀ (k : String) (v : β), dictGet k s.data = some v → ∃ ts : Int, (ts, k) ∈ s.ages

theorem cacheInv_empty {β : Type} (ttl : Int) : CacheInv [] (ExpiringCache.empty β ttl) := by
  constructor
  · simp [ExpiringCache.empty]
  · intro k v h
    simp [ExpiringCache.empty, dictGet] at h

theorem add_inv {β : Type} (past : List (Call β)) (s : CacheState β) (c : Call β)
    (h : CacheInv past s) : CacheInv (past ++ [c]) (ExpiringCache.add s c.key c.info c.now) := by
  obtain ⟨h1, h3⟩ := h
  have hpre : ∀ (k : String) (v : β), dictGet k (dictSet c.key c.info s.data) = some v →
      ∃ ts : Int, (ts, k) ∈ s.ages ++ [(c.now, c.key)] := by
    intro k v hk
    by_cases hkey : k = c.key
    · subst hkey
      exact ⟨c.now, by simp⟩
    · rw [dictGet_set_ne c.key k c.info s.data hkey] at hk
      obtain ⟨ts, hts⟩ := h3 k v hk
      exact ⟨ts, by simp [hts]⟩
  constructor
  · show (ExpiringCache.purgeGo (c.now - s.ttl) (s.ages ++ [(c.now, c.key)])
      (dictSet c.key c.info s.data)).1.Sublist ((past ++ [c]).map callAge)
    rw [ExpiringCache.purgeGo_ages_eq_dropWhile]
    refine List.Sublist.trans (List.dropWhile_sublist _) ?_
    rw [List.map_append]
    exact h1.append (List.Sublist.refl _)
  · intro k v hk
    have hk' := hk
    show ∃ ts : Int, (ts, k) ∈ (ExpiringCache.purgeGo (c.now - s.ttl)
      (s.ages ++ [(c.now, c.key)]) (dictSet c.key c.info s.data)).1
    obtain ⟨hdata, hmem⟩ := ExpiringCache.purgeGo_some_inv (c.now - s.ttl)
      (s.ages ++ [(c.now, c.key)]) (dictSet c.key c.info s.data) k v hk'
    obtain ⟨ts, hts⟩ := hpre k v hdata
    exact ⟨ts, hmem ts hts⟩

theorem runAdds_inv {β : Type} (calls : List (Call β)) (past : List (Call β))
    (s : CacheState β) (h : CacheInv past s) : CacheInv (past ++ calls) (runAdds s calls) := by
  induction calls generalizing past s with
  | nil => simpa using h
  | cons c rest ih =>
    have h' := add_inv past s c h
    have := ih (past ++ [c]) _ h'
    simpa [List.append_assoc] using this

/-- On a strictly time-sorted age list, every record that survives
`dropWhile (· ≤ c)` has a timestamp strictly beyond `c`. -/
theorem mem_dropWhile_gt (l : List (Int × String)) (c : Int)
    (hs : l.Pairwise (fun a b => a.1 < b.1)) :
    ∀ e ∈ l.dropWhile (fun e => decide (e.1 ≤ c)), c < e.1 := by
  induction l with
  | nil => simp
  | cons a rest ih =>
    obtain ⟨ha, hrest⟩ := List.pairwise_cons.mp hs
    by_cases hd : a.1 ≤ c
    · have hdd : decide (a.1 ≤ c) = true := by simp [hd]
      simp only [List.dropWhile, hdd]
      exact ih hrest
    · have hdd : decide (a.1 ≤ c) = false := by simp [hd]
      simp only [List.dropWhile, hdd]
      intro e he
      rcases List.mem_cons.mp he with rfl | htl
      · omega
      · have := ha e htl
        omega

/-- A list whose `Call.key` projections are distinct has at most one call
per key. -/
theorem key_inj {β : Type} (l : List (Call β)) (h : (l.map Call.key).Nodup)
    (a b : Call β) (ha : a ∈ l) (hb : b ∈ l) (hk : a.key = b.key) : a = b := by
  induction l with
  | nil => simp at ha
  | cons c rest ih =>
    rw [List.map_cons, List.nodup_cons] at h
    rcases List.mem_cons.mp ha with rfl | ha' <;> rcases List.mem_cons.mp hb with rfl | hb'
    · rfl
    · exact absurd (hk.symm ▸ List.mem_map_of_mem Call.key hb') h.1
    · exact absurd (hk ▸ List.mem_map_of_mem Call.key ha') h.1
    · exact ih h.2 ha' hb'

theorem add_preserves_none {β : Type} (s : CacheState β) (k key : String) (v : β) (now : Int)
    (hne : key ≠ k) (h : dictGet k s.data = none) :
    dictGet k (ExpiringCache.add s key v now).data = none := by
  show dictGet k (ExpiringCache.purgeGo (now - s.ttl) (s.ages ++ [(now, key)])
    (dictSet key v s.data)).2 = none
  apply ExpiringCache.purgeGo_data_preserves_none
  rw [dictGet_set_ne key k v s.data (fun hh => hne hh.symm)]
  exact h

theorem runAdds_preserves_none {β : Type} (s : CacheState β) (calls : List (Call β))
    (k : String) (hne : ∀ c ∈ calls, c.key ≠ k) (h : dictGet k s.data = none) :
    dictGet k (runAdds s calls).data = none := by
  induction calls generalizing s with
  | nil => exact h
  | cons c rest ih =>
    rw [runAdds]
    exact ih _ (fun c' hc' => hne c' (List.mem_cons_of_mem c hc'))
      (add_preserves_none s k c.key c.info c.now (hne c (List.mem_cons_self c rest)) h)

/-- Claim C3: for every sequence of `ExpiringCache.add` calls with strictly
increasing injected timestamps and pairwise distinct keys, if an entry is
inserted at time `t` and any later `add` is performed at `t + ttl + 1`,
then a subsequent `get` for the first entry's key returns absent. -/
theorem cache_ttl_expiry {β : Type} (ttl : Int) (l1 l2 l3 : List (Call β)) (ct c2 : Call β)
    (hc2now : c2.now = ct.now + ttl + 1)
    (hsort : ((l1 ++ [ct] ++ l2 ++ [c2] ++ l3).map Call.now).Pairwise (· < ·))
    (hkeys : ((l1 ++ [ct] ++ l2 ++ [c2] ++ l3).map Call.key).Nodup) :
    ExpiringCache.get (runAdds (ExpiringCache.empty β ttl) (l1 ++ [ct] ++ l2 ++ [c2] ++ l3))
      ct.key = none := by
  have hsort' : (l1 ++ [ct] ++ l2 ++ [c2] ++ l3).Pairwise (fun a b => a.now < b.now) :=
    List.pairwise_map.mp hsort
  have hkeys' : (l1 ++ [ct] ++ l2 ++ [c2] ++ l3).Pairwise (fun a b => a.key ≠ b.key) :=
    List.pairwise_map.mp hkeys
  -- the state after processing everything up to and including `ct` and `l2`
  have hs2inv : CacheInv (l1 ++ [ct] ++ l2) (runAdds (ExpiringCache.empty β ttl)
      (l1 ++ [ct] ++ l2)) := by
    simpa using runAdds_inv (l1 ++ [ct] ++ l2) [] _ (cacheInv_empty ttl)
  have hs2ttl : (runAdds (ExpiringCache.empty β ttl) (l1 ++ [ct] ++ l2)).ttl = ttl := by
    rw [runAdds_ttl]; rfl
  -- sortedness facts
  have hsubP : (l1 ++ [ct] ++ l2).Sublist (l1 ++ [ct] ++ l2 ++ [c2] ++ l3) :=
    ((List.sublist_append_left _ [c2]).trans (List.sublist_append_left _ l3))
  have hsubPc2 : (l1 ++ [ct] ++ l2 ++ [c2]).Sublist (l1 ++ [ct] ++ l2 ++ [c2] ++ l3) :=
    List.sublist_append_left _ l3
  have hsortP : ((l1 ++ [ct] ++ l2).map callAge).Pairwise (fun a b => a.1 < b.1) :=
    List.pairwise_map.mpr (hsort'.sublist hsubP)
  have hcross : ∀ e ∈ (l1 ++ [ct] ++ l2).map callAge, e.1 < c2.now := by
    intro e he
    obtain ⟨cc, hcc, rfl⟩ := List.mem_map.mp he
    have h1 : (l1 ++ [ct] ++ l2 ++ [c2]).Pairwise (fun a b => a.now < b.now) :=
      hsort'.sublist hsubPc2
    exact (List.pairwise_append.mp h1).2.2 cc hcc c2 (by simp)
  -- after the add at `ct.now + ttl + 1` the key of `ct` is gone
  have hnone3 : dictGet ct.key (ExpiringCache.add
      (runAdds (ExpiringCache.empty β ttl) (l1 ++ [ct] ++ l2)) c2.key c2.info c2.now).data
        = none := by
    have hs3inv := add_inv (l1 ++ [ct] ++ l2) _ c2 hs2inv
    rcases hgv : dictGet ct.key (ExpiringCache.add
        (runAdds (ExpiringCache.empty β ttl) (l1 ++ [ct] ++ l2)) c2.key c2.info c2.now).data
      with _ | v'
    · rfl
    exfalso
    obtain ⟨ts, hts⟩ := hs3inv.2 ct.key v' hgv
    have htsmem : (ts, ct.key) ∈ ((l1 ++ [ct] ++ l2) ++ [c2]).map callAge :=
      (hs3inv.1).subset hts
    obtain ⟨cc, hccmem, hcceq⟩ := List.mem_map.mp htsmem
    have hcckey : cc.key = ct.key := congrArg Prod.snd hcceq
    have hccnow : cc.now = ts := congrArg Prod.fst hcceq
    have hctmem : ct ∈ (l1 ++ [ct] ++ l2) ++ [c2] := by simp
    have hkeysPc2 : (((l1 ++ [ct] ++ l2) ++ [c2]).map Call.key).Nodup :=
      List.Nodup.sublist (List.Sublist.map Call.key hsubPc2) hkeys
    have hcc_eq : cc = ct := key_inj _ hkeysPc2 cc ct hccmem hctmem hcckey
    have hts_t : ts = ct.now := by rw [hcc_eq] at hccnow; exact hccnow.symm
    -- every surviving age record has a timestamp beyond the purge threshold
    have hages : (ExpiringCache.add
        (runAdds (ExpiringCache.empty β ttl) (l1 ++ [ct] ++ l2)) c2.key c2.info c2.now).ages =
        ((runAdds (ExpiringCache.empty β ttl) (l1 ++ [ct] ++ l2)).ages ++ [(c2.now, c2.key)]
          ).dropWhile (fun e => decide (e.1 ≤ c2.now -
            (runAdds (ExpiringCache.empty β ttl) (l1 ++ [ct] ++ l2)).ttl)) :=
      ExpiringCache.purgeGo_ages_eq_dropWhile _ _ _
    have hsall : ((runAdds (ExpiringCache.empty β ttl) (l1 ++ [ct] ++ l2)).ages ++
        [(c2.now, c2.key)]).Pairwise (fun a b => a.1 < b.1) := by
      rw [List.pairwise_append]
      refine ⟨hsortP.sublist hs2inv.1, List.pairwise_singleton _ _, ?_⟩
      intro a ha b hb
      rcases List.mem_singleton.mp hb with rfl
      exact hcross a ((hs2inv.1).subset ha)
    have hgt := mem_dropWhile_gt _ (c2.now -
        (runAdds (ExpiringCache.empty β ttl) (l1 ++ [ct] ++ l2)).ttl) hsall
      (ts, ct.key) (hages ▸ hts)
    have hgt' : c2.now - (runAdds (ExpiringCache.empty β ttl) (l1 ++ [ct] ++ l2)).ttl < ts :=
      hgt
    rw [hs2ttl, hc2now] at hgt'
    omega
  -- the remaining adds never touch `ct.key`
  have hl3ne : ∀ c ∈ l3, c.key ≠ ct.key := by
    intro c hc
    have h1 : ((l1 ++ [ct] ++ l2 ++ [c2]) ++ l3).Pairwise (fun a b => a.key ≠ b.key) := by
      simpa using hkeys'
    have hcr := (List.pairwise_append.mp h1).2.2 ct (by simp) c hc
    exact fun hh => hcr hh.symm
  calc ExpiringCache.get (runAdds (ExpiringCache.empty β ttl)
        (l1 ++ [ct] ++ l2 ++ [c2] ++ l3)) ct.key
      = dictGet ct.key (runAdds (ExpiringCache.add
          (runAdds (ExpiringCache.empty β ttl) (l1 ++ [ct] ++ l2)) c2.key c2.info c2.now)
            l3).data := by
        rw [runAdds_append, runAdds_append]
        rfl
    _ = none := runAdds_preserves_none _ l3 ct.key hl3ne hnone3

/-- Witness for `cache_ttl_expiry` at a concrete input: insert "a" at time 0
with ttl 3, add "b" at time 4 = 0 + 3 + 1, and "a" is gone. -/
theorem cache_ttl_expiry_witness :
    ExpiringCache.get (runAdds (ExpiringCache.empty String 3)
      ([] ++ [⟨"a", "x", 0⟩] ++ [] ++ [⟨"b", "y", 4⟩] ++ [])) "a" = none :=
  cache_ttl_expiry 3 [] [] [] ⟨"a", "x", 0⟩ ⟨"b", "y", 4⟩ (by decide) (by decide) (by decide)

theorem dropWhile_append_mid {α : Type} (p : α → Bool) (l1 l2 : List α) (x : α)
    (hx : p x = false) :
    (l1 ++ x :: l2).dropWhile p = l1.dropWhile p ++ x :: l2 := by
  induction l1 with
  | nil => simp [List.dropWhile, hx]
  | cons a rest ih =>
    cases ha : p a with
    | true => simp only [List.cons_append, List.dropWhile, ha, List.append_eq, ih]
    | false => simp only [List.cons_append, List.dropWhile, ha, List.append_eq]

theorem takeWhile_append_mid {α : Type} (p : α → Bool) (l1 l2 : List α) (x : α)
    (hx : p x = false) :
    (l1 ++ x :: l2).takeWhile p = l1.takeWhile p := by
  induction l1 with
  | nil => simp [List.takeWhile, hx]
  | cons a rest ih =>
    cases ha : p a with
    | true => simp only [List.cons_append, List.takeWhile, ha, List.append_eq, ih]
    | false => simp only [List.cons_append, List.takeWhile, ha, List.append_eq]

/-- Claim C4: `purge_expired` removes entries strictly oldest-inserted-first,
scanning the age deque from the front and stopping at the first entry whose
timestamp is not past the threshold (a prefix scan); consequently, for
distinct keys, an entry recorded after a still-valid older entry is never
purged while the older entry remains. -/
theorem purge_expired_oldest_first {β : Type} (s : CacheState β) (c : Int) :
    (ExpiringCache.purge_expired s c).ages
        = s.ages.dropWhile (fun e => decide (e.1 ≤ c)) ∧
      ∀ (l1 l2 : List (Int × String)) (t1 : Int) (k1 : String) (t2 : Int) (k2 : String),
        s.ages = l1 ++ (t1, k1) :: l2 → c < t1 → (t2, k2) ∈ l2 → k2 ∉ l1.map Prod.snd →
          dictGet k2 (ExpiringCache.purge_expired s c).data = dictGet k2 s.data ∧
            (t2, k2) ∈ (ExpiringCache.purge_expired s c).ages := by
  constructor
  · exact ExpiringCache.purgeGo_ages_eq_dropWhile c s.ages s.data
  · intro l1 l2 t1 k1 t2 k2 hag hvalid hmem hk2
    have hx : (fun e : Int × String => decide (e.1 ≤ c)) (t1, k1) = false := by
      simp only [decide_eq_false_iff_not]
      omega
    constructor
    · show dictGet k2 (ExpiringCache.purgeGo c s.ages s.data).2 = dictGet k2 s.data
      apply ExpiringCache.purgeGo_data_untouched
      rw [hag, takeWhile_append_mid (fun e : Int × String => decide (e.1 ≤ c)) l1 l2 (t1, k1) hx]
      intro hmem'
      exact hk2 ((List.Sublist.map Prod.snd (List.takeWhile_sublist _)).subset hmem')
    · show (t2, k2) ∈ (ExpiringCache.purgeGo c s.ages s.data).1
      rw [ExpiringCache.purgeGo_ages_eq_dropWhile, hag,
        dropWhile_append_mid (fun e : Int × String => decide (e.1 ≤ c)) l1 l2 (t1, k1) hx]
      simp [hmem]

/-- Witness for `purge_expired_oldest_first` at a concrete input. -/
theorem purge_expired_oldest_first_witness :
    dictGet "c" (ExpiringCache.purge_expired
        (⟨[("a", "va"), ("b", "vb"), ("c", "vc")], [(0, "a"), (5, "b"), (9, "c")], 100⟩ :
          CacheState String) 2).data
      = dictGet "c" (⟨[("a", "va"), ("b", "vb"), ("c", "vc")],
          [(0, "a"), (5, "b"), (9, "c")], 100⟩ : CacheState String).data ∧
      (9, "c") ∈ (ExpiringCache.purge_expired
        (⟨[("a", "va"), ("b", "vb"), ("c", "vc")], [(0, "a"), (5, "b"), (9, "c")], 100⟩ :
          CacheState String) 2).ages :=
  (purge_expired_oldest_first _ 2).2 [(0, "a")] [(9, "c")] 5 "b" 9 "c" rfl (by decide)
    (by decide) (by decide)

/-- Counterexample to claim C7 as stated: an entry inserted at time 0 with
ttl 1 is expired at observation time 2 (age 2 exceeds ttl 1) and has not
been purged, yet `get` still returns the stored value, not absent. -/
theorem get_returns_expired_entry :
    ExpiringCache.get (ExpiringCache.add (ExpiringCache.empty String 1) "k" "v" 0) "k"
        = some "v" ∧ (1 : Int) < 2 - 0 := by decide

theorem dictGet_eq_none_of_hasKey_false {β : Type} (k : String) (l : List (String × β))
    (h : dictHasKey k l = false) : dictGet k l = none := by
  induction l with
  | nil => rfl
  | cons e rest ih =>
    simp only [dictHasKey, Bool.or_eq_false_iff, decide_eq_false_iff_not] at h
    simp only [dictGet, if_neg h.1]
    exact ih h.2

/-- Claim C7 (amended): `get` of an absent (never inserted or already
purged/deleted) key returns absent, not an error; but `get` of an
expired-but-not-yet-purged key still returns the stored value — `get` does
no age check (`return self._data.get(key)`). -/
theorem get_semantics {β : Type} (s : CacheState β) (k : String) :
    (dictHasKey k s.data = false → ExpiringCache.get s k = none) ∧
      ∀ (ttl t now : Int) (v : β), 0 < ttl → t + ttl < now →
        ExpiringCache.get (ExpiringCache.add (ExpiringCache.empty β ttl) k v t) k = some v := by
  constructor
  · intro h
    exact dictGet_eq_none_of_hasKey_false k s.data h
  · intro ttl t now v httl hexp
    have hgt : t > t - ttl := by omega
    simp [ExpiringCache.add, ExpiringCache.purge_expired, ExpiringCache.purgeGo,
      ExpiringCache.empty, ExpiringCache.get, hgt, dictSet, dictHasKey, dictGet]

/-- Witness for `get_semantics` at concrete inputs. -/
theorem get_semantics_witness :
    ExpiringCache.get (ExpiringCache.empty String 5) "k" = none ∧
      ExpiringCache.get (ExpiringCache.add (ExpiringCache.empty String 1) "q" "v" 0) "q"
        = some "v" :=
  ⟨(get_semantics (ExpiringCache.empty String 5) "k").1 (by decide),
   (get_semantics (ExpiringCache.empty String 1) "q").2 1 0 2 "v" (by decide) (by decide)⟩

/-- Counterexample to claim C8 as stated: deleting a nonexistent key does
not return the boolean `False` — the Python function falls off the end and
returns `None`. -/
theorem delete_missing_returns_python_none :
    (ExpiringCache.delete (ExpiringCache.empty String 1) "k").1 = none ∧
      (ExpiringCache.delete (ExpiringCache.empty String 1) "k").1 ≠ some false := by decide

theorem delete_present {β : Type} (s : CacheState β) (k : String)
    (h : (dictGet k s.data).isSome = true) :
    ExpiringCache.delete s k = (some true, { s with data := dictDelete k s.data }) := by
  unfold ExpiringCache.delete
  rw [if_pos h]

theorem delete_absent {β : Type} (s : CacheState β) (k : String)
    (h : (dictGet k s.data).isSome = false) :
    ExpiringCache.delete s k = (none, s) := by
  unfold ExpiringCache.delete
  rw [if_neg]
  simp [h]

/-- Claim C8 (amended): `delete` is idempotent; it returns `True` when an
entry was present and removed, and returns Python `None` (falsy, but not
the boolean `False`) when no entry existed — the nonexistent-key case is a
logged no-op, not an error. -/
theorem delete_semantics {β : Type} (s : CacheState β) (k : String) :
    ((dictGet k s.data).isSome = true →
        (ExpiringCache.delete s k).1 = some true ∧
          dictGet k (ExpiringCache.delete s k).2.data = none) ∧
      ((dictGet k s.data).isSome = false →
        (ExpiringCache.delete s k).1 = none ∧ (ExpiringCache.delete s k).2 = s) ∧
      (ExpiringCache.delete (ExpiringCache.delete s k).2 k).2
        = (ExpiringCache.delete s k).2 := by
  refine ⟨?_, ?_, ?_⟩
  · intro h
    rw [delete_present s k h]
    exact ⟨rfl, dictGet_delete_self k s.data⟩
  · intro h
    rw [delete_absent s k h]
    exact ⟨rfl, rfl⟩
  · by_cases h : (dictGet k s.data).isSome = true
    · rw [delete_present s k h]
      show (ExpiringCache.delete { s with data := dictDelete k s.data } k).2
        = ({ s with data := dictDelete k s.data } : CacheState β)
      rw [delete_absent]
      show (dictGet k (dictDelete k s.data)).isSome = false
      rw [dictGet_delete_self]
      rfl
    · have h' : (dictGet k s.data).isSome = false := by
        cases hh : (dictGet k s.data).isSome
        · rfl
        · exact absurd hh h
      rw [delete_absent s k h']
      show (ExpiringCache.delete s k).2 = s
      rw [delete_absent s k h']

/-- Witness for `delete_semantics` at concrete inputs. -/
theorem delete_semantics_witness :
    (ExpiringCache.delete (⟨[("k", "v")], [(0, "k")], 9⟩ : CacheState String) "k").1
        = some true ∧
      (ExpiringCache.delete (ExpiringCache.empty String 9) "x").2
        = ExpiringCache.empty String 9 :=
  ⟨((delete_semantics (⟨[("k", "v")], [(0, "k")], 9⟩ : CacheState String) "k").1
      (by decide)).1,
   ((delete_semantics (ExpiringCache.empty String 9) "x").2.1 (by decide)).2⟩

/-- Claim C10: re-adding an existing key does not extend its lifetime. With
ttl 10: add "k" at 0, re-add "k" at 5, then add "x" at 11 = 0 + 10 + 1.
The purge of the time-0 age record deletes "k" outright, so `get "k"` is
absent even though the latest value for "k" is younger than the ttl
(11 < 5 + 10), the original record is gone, and the surviving (5, "k") age
record refers to an already-deleted key. -/
theorem readd_does_not_extend_lifetime :
    ExpiringCache.get (ExpiringCache.add (ExpiringCache.add (ExpiringCache.add
        (ExpiringCache.empty String 10) "k" "v1" 0) "k" "v2" 5) "x" "v3" 11) "k" = none ∧
      (5, "k") ∈ (ExpiringCache.add (ExpiringCache.add (ExpiringCache.add
        (ExpiringCache.empty String 10) "k" "v1" 0) "k" "v2" 5) "x" "v3" 11).ages ∧
      (0, "k") ∉ (ExpiringCache.add (ExpiringCache.add (ExpiringCache.add
        (ExpiringCache.empty String 10) "k" "v1" 0) "k" "v2" 5) "x" "v3" 11).ages ∧
      (11 : Int) < 5 + 10 := by decide

/-! ### SSO login engine (src/eduid_idp/login.py) -/

/-- The fields of a parsed pysaml2 `AuthnRequest` message that the engine
reads: `message.id`, the truthiness of `message.force_authn`, and
`message.issuer.text`. -/
structure AuthnReq where
  id : String
  force_authn : Bool
  issuer : String
deriving DecidableEq

/-- The field of an SSO session record consulted by `_should_force_authn`
(`self.sso_session.user_authn_request_id`). -/
structure SSOSessionRec where
  user_authn_request_id : String
deriving DecidableEq

/-- `'@' in eppn` on a Python string. -/
def containsChar (s : String) (c : Char) : Bool :=
  s.data.any (fun ch => ch = c)

namespace SSO

/-- `SSO._should_force_authn(ticket)`: SAML ForceAuthn, with the loop guard
comparing the session's stored authn request id to this request's id. -/
def _should_force_authn (sso_session : Option SSOSessionRec) (req_message : AuthnReq) : Bool :=
  if req_message.force_authn then
    match sso_session with
    | none => true
    | some sess =>
      if req_message.id ≠ sess.user_authn_request_id then true
      else false
  else false

/-- `SSO._make_scoped_eppn(attributes)` with the configured
`default_eppn_scope` (Python `None` or a string; falsy skips scoping). -/
def _make_scoped_eppn (attributes : List (String × String))
    (default_eppn_scope : Option String) : List (String × String) :=
  match dictGet "eduPersonPrincipalName" attributes with
  | none => attributes
  | some eppn =>
    if eppn = "" then attributes
    else if containsChar eppn '@' then attributes
    else
      match default_eppn_scope with
      | none => attributes
      | some scope =>
        if scope = "" then attributes
        else dictSet "eduPersonPrincipalName" (eppn ++ "@" ++ scope) attributes

end SSO

/-- Claim C1: `_should_force_authn` returns True exactly when the request
has ForceAuthn set and either no SSO session exists or the session's stored
authn request id differs from this request's id; in particular a session
bound to this request's id makes ForceAuthn ignored, and a request without
ForceAuthn never forces re-authentication. -/
theorem should_force_authn_spec :
    ∀ (sso_session : Option SSOSessionRec) (req : AuthnReq),
      SSO._should_force_authn sso_session req = true ↔
        (req.force_authn = true ∧
          (sso_session = none ∨
            ∃ sess, sso_session = some sess ∧ sess.user_authn_request_id ≠ req.id)) := by
  intro sso_session req
  cases sso_session with
  | none =>
    cases hf : req.force_authn <;> simp [SSO._should_force_authn, hf]
  | some sess =>
    cases hf : req.force_authn
    · simp [SSO._should_force_authn, hf]
    · by_cases hid : req.id = sess.user_authn_request_id
      · simp [SSO._should_force_authn, hf, hid]
      · simp [SSO._should_force_authn, hf, hid]
        exact fun hh => absurd hh.symm hid

/-- Counterexample to claim C9 as stated: an empty-string
eduPersonPrincipalName contains no '@', yet with default scope
"example.org" configured it is returned unmodified instead of becoming
"@example.org" — `if not eppn` treats it like a missing attribute. -/
theorem scoped_eppn_empty_value_not_scoped :
    SSO._make_scoped_eppn [("eduPersonPrincipalName", "")] (some "example.org")
        = [("eduPersonPrincipalName", "")] ∧
      containsChar "" '@' = false ∧
      dictGet "eduPersonPrincipalName" (SSO._make_scoped_eppn
        [("eduPersonPrincipalName", "")] (some "example.org")) ≠ some "@example.org" := by
  decide

/-- Claim C9 (amended): with a configured (non-empty) default scope, a
non-empty eduPersonPrincipalName value containing no '@' gets '@' plus the
scope appended ("alice" becomes "alice@example.org"); a value already
containing '@' is unmodified; a dict without the attribute is unchanged.
(An empty-string value is treated by the code like a missing attribute.) -/
theorem make_scoped_eppn_spec (attributes : List (String × String)) (scope : String)
    (hscope : scope ≠ "") :
    (∀ eppn, dictGet "eduPersonPrincipalName" attributes = some eppn → eppn ≠ "" →
        containsChar eppn '@' = false →
        SSO._make_scoped_eppn attributes (some scope)
          = dictSet "eduPersonPrincipalName" (eppn ++ "@" ++ scope) attributes) ∧
      (∀ eppn, dictGet "eduPersonPrincipalName" attributes = some eppn →
        containsChar eppn '@' = true →
        SSO._make_scoped_eppn attributes (some scope) = attributes) ∧
      (dictGet "eduPersonPrincipalName" attributes = none →
        SSO._make_scoped_eppn attributes (some scope) = attributes) := by
  refine ⟨?_, ?_, ?_⟩
  · intro eppn hget hne hat
    simp [SSO._make_scoped_eppn, hget, hne, hat, hscope]
  · intro eppn hget hat
    by_cases hne : eppn = ""
    · simp [SSO._make_scoped_eppn, hget, hne]
    · simp [SSO._make_scoped_eppn, hget, hne, hat]
  · intro hget
    simp [SSO._make_scoped_eppn, hget]

/-- Witness for `make_scoped_eppn_spec` at concrete inputs. -/
theorem make_scoped_eppn_witness :
    SSO._make_scoped_eppn [("eduPersonPrincipalName", "alice")] (some "example.org")
        = [("eduPersonPrincipalName", "alice@example.org")] ∧
      SSO._make_scoped_eppn [("eduPersonPrincipalName", "bob@x.se")] (some "example.org")
        = [("eduPersonPrincipalName", "bob@x.se")] := by
  constructor
  · have h := (make_scoped_eppn_spec [("eduPersonPrincipalName", "alice")] "example.org"
      (by decide)).1 "alice" (by decide) (by decide) (by decide)
    rw [h]
    decide
  · exact (make_scoped_eppn_spec [("eduPersonPrincipalName", "bob@x.se")] "example.org"
      (by decide)).2.1 "bob@x.se" (by decide) (by decide)

/-! ### SSO session store and logout engine (cache.py, logout.py) -/

/-- `saml2.samlp.STATUS_SUCCESS`. -/
def STATUS_SUCCESS : String := "urn:oasis:names:tc:SAML:2.0:status:Success"

/-- `saml2.samlp.STATUS_RESPONDER`. -/
def STATUS_RESPONDER : String := "urn:oasis:names:tc:SAML:2.0:status:Responder"

/-- `saml2.samlp.STATUS_PARTIAL_LOGOUT`. -/
def STATUS_PARTIAL_LOGOUT : String := "urn:oasis:names:tc:SAML:2.0:status:PartialLogout"

/-- `saml2.samlp.STATUS_UNKNOWN_PRINCIPAL`. -/
def STATUS_UNKNOWN_PRINCIPAL : String := "urn:oasis:names:tc:SAML:2.0:status:UnknownPrincipal"

/-- The dict `{'username': ..., 'data': ...}` that `SSOSessionCacheMem.add_session`
stores per session id. -/
structure SessVal where
  username : String
  data : List (String × String)
deriving DecidableEq

namespace SSOSessionCacheMem

/-- `SSOSessionCacheMem.get_session(sid)`: `this = self.lid2data.get(sid);
if this: return this['data']` (the stored two-key dict is always truthy
when present; a miss falls through to Python `None`). -/
def get_session (store : CacheState SessVal) (sid : String) :
    Option (List (String × String)) :=
  match ExpiringCache.get store sid with
  | some this => some this.data
  | none => none

/-- `SSOSessionCacheMem.remove_session(sid)`: `return self.lid2data.delete(sid)`. -/
def remove_session (store : CacheState SessVal) (sid : String) :
    Option Bool × CacheState SessVal :=
  ExpiringCache.delete store sid

/-- Modelled from the spec: `getSessionsForUser(userId) → list of sessionId`.
`SLO.perform_logout` (logout.py line 123) calls
`self.IDP.cache.get_sessions_for_user(username)`, but no such method is
defined in cache.py under src/; following the spec's words it returns the
session ids of all of the given user's active sessions (the secondary
index keyed by user over the session store). The user id is optional
because `find_local_id` may return Python `None`. -/
def get_sessions_for_user (store : CacheState SessVal) (userId : Option String) :
    List String :=
  (store.data.filter (fun e => some e.2.username == userId)).map (fun e => e.1)

end SSOSessionCacheMem

namespace SLO

/-- The session-resolution step of `SLO.perform_logout` (logout.py lines
109-126): with a truthy `idpauthn` cookie the logout targets exactly that
session; otherwise the subject's NameID is resolved to a local user id via
`self.IDP.ident.find_local_id` and all of that user's sessions are
enumerated through the store. -/
def resolve_logout_session_ids (find_local_id : String → Option String)
    (store : CacheState SessVal) (name_id : String) (cookie : Option String) :
    List String :=
  match cookie with
  | some sid =>
    if sid = "" then SSOSessionCacheMem.get_sessions_for_user store (find_local_id name_id)
    else [sid]
  | none => SSOSessionCacheMem.get_sessions_for_user store (find_local_id name_id)

/-- The per-session loop of `SLO._logout_session_ids`: look the session up
(`get_session`), treat falsy data as `KeyError` (res = 0), re-hydrate via
`eduid_idp.sso_session.from_dict` (a `KeyError` there is also caught as
res = 0), then `remove_session`; `if not res: fail += 1`. `from_dict` is
not under src/ and is passed in as the collaborator that may raise. -/
def _logout_session_ids_go (from_dict : List (String × String) → Option SSOSessionRec)
    (store : CacheState SessVal) (sids : List String) (fail : Nat) :
    Nat × CacheState SessVal :=
  match sids with
  | [] => (fail, store)
  | sid :: rest =>
    match SSOSessionCacheMem.get_session store sid with
    | none => _logout_session_ids_go from_dict store rest (fail + 1)
    | some d =>
      if d = [] then _logout_session_ids_go from_dict store rest (fail + 1)
      else
        match from_dict d with
        | none => _logout_session_ids_go from_dict store rest (fail + 1)
        | some _ =>
          let r := SSOSessionCacheMem.remove_session store sid
          if r.1.getD false then _logout_session_ids_go from_dict r.2 rest fail
          else _logout_session_ids_go from_dict r.2 rest (fail + 1)

/-- `SLO._logout_session_ids(session_ids, req_key)`: run the loop and
classify: `if fail:` then Responder when `fail == len(session_ids)` else
PartialLogout; otherwise Success. -/
def _logout_session_ids (from_dict : List (String × String) → Option SSOSessionRec)
    (store : CacheState SessVal) (sids : List String) : String × CacheState SessVal :=
  let r := _logout_session_ids_go from_dict store sids 0
  (if r.1 ≠ 0 then
      if r.1 = sids.length then STATUS_RESPONDER else STATUS_PARTIAL_LOGOUT
    else STATUS_SUCCESS, r.2)

end SLO

/-- Whether the loop body of `_logout_session_ids` succeeds in removing a
given session id against a given store state: the session is found, its
data is truthy, and `from_dict` does not raise. -/
def sessionRemovable (from_dict : List (String × String) → Option SSOSessionRec)
    (store : CacheState SessVal) (sid : String) : Bool :=
  match SSOSessionCacheMem.get_session store sid with
  | none => false
  | some d => if d = [] then false else (from_dict d).isSome

theorem sessionRemovable_delete_ne (fd : List (String × String) → Option SSOSessionRec)
    (store : CacheState SessVal) (sid sid' : String) (h : sid' ≠ sid) :
    sessionRemovable fd { store with data := dictDelete sid store.data } sid'
      = sessionRemovable fd store sid' := by
  unfold sessionRemovable SSOSessionCacheMem.get_session ExpiringCache.get
  rw [show ({ store with data := dictDelete sid store.data } : CacheState SessVal).data
      = dictDelete sid store.data from rfl]
  rw [dictGet_delete_ne sid sid' store.data h]

theorem logout_go_cons_eq (fd : List (String × String) → Option SSOSessionRec)
    (store : CacheState SessVal) (sid : String) (rest : List String) (fail : Nat) :
    SLO._logout_session_ids_go fd store (sid :: rest) fail
      = match SSOSessionCacheMem.get_session store sid with
        | none => SLO._logout_session_ids_go fd store rest (fail + 1)
        | some d =>
          if d = [] then SLO._logout_session_ids_go fd store rest (fail + 1)
          else
            match fd d with
            | none => SLO._logout_session_ids_go fd store rest (fail + 1)
            | some _ =>
              let r := SSOSessionCacheMem.remove_session store sid
              if r.1.getD false then SLO._logout_session_ids_go fd r.2 rest fail
              else SLO._logout_session_ids_go fd r.2 rest (fail + 1) := rfl

theorem logout_go_spec (fd : List (String × String) → Option SSOSessionRec)
    (sids : List String) :
    ∀ (store : CacheState SessVal) (fail0 : Nat), sids.Nodup →
      (SLO._logout_session_ids_go fd store sids fail0).1
        = fail0 + (sids.filter (fun sid => ! sessionRemovable fd store sid)).length := by
  induction sids with
  | nil =>
    intro store fail0 _
    simp [SLO._logout_session_ids_go]
  | cons sid rest ih =>
    intro store fail0 hnd
    obtain ⟨hnotin, hnd'⟩ := List.nodup_cons.mp hnd
    by_cases hrem : sessionRemovable fd store sid = true
    · -- the head session is removable: extract the branch facts
      have hfilter : List.filter (fun s => ! sessionRemovable fd store s) (sid :: rest)
          = List.filter (fun s => ! sessionRemovable fd store s) rest := by
        simp [List.filter_cons, hrem]
      unfold sessionRemovable at hrem
      cases hg : SSOSessionCacheMem.get_session store sid with
      | none =>
        rw [hg] at hrem
        simp at hrem
      | some d =>
        rw [hg] at hrem
        have hrem2 : (if d = [] then false else (fd d).isSome) = true := hrem
        by_cases hd : d = []
        · rw [if_pos hd] at hrem2
          simp at hrem2
        · rw [if_neg hd] at hrem2
          cases hfd : fd d with
          | none =>
            rw [hfd] at hrem2
            simp at hrem2
          | some sess =>
            have hpres : (dictGet sid store.data).isSome = true := by
              unfold SSOSessionCacheMem.get_session ExpiringCache.get at hg
              cases hdg : dictGet sid store.data
              · rw [hdg] at hg
                exact absurd hg (by simp)
              · rfl
            have hdel : SSOSessionCacheMem.remove_session store sid
                = (some true, { store with data := dictDelete sid store.data }) :=
              delete_present store sid hpres
            have hstep : SLO._logout_session_ids_go fd store (sid :: rest) fail0
                = SLO._logout_session_ids_go fd
                    { store with data := dictDelete sid store.data } rest fail0 := by
              rw [logout_go_cons_eq, hg]
              simp [hd, hfd, hdel]
            rw [hstep, ih _ fail0 hnd']
            have hcong : rest.filter
                  (fun s => ! sessionRemovable fd
                    { store with data := dictDelete sid store.data } s)
                = rest.filter (fun s => ! sessionRemovable fd store s) := by
              apply List.filter_congr
              intro s hs
              rw [sessionRemovable_delete_ne fd store sid s (fun heq => hnotin (heq ▸ hs))]
            rw [hcong, hfilter]
    · -- the head session fails: all three failure branches leave the store
      -- untouched and bump the fail counter
      have hrem' : sessionRemovable fd store sid = false := by
        cases hh : sessionRemovable fd store sid
        · rfl
        · exact absurd hh hrem
      have hfilter : List.filter (fun s => ! sessionRemovable fd store s) (sid :: rest)
          = sid :: List.filter (fun s => ! sessionRemovable fd store s) rest := by
        simp [List.filter_cons, hrem']
      have hstep : SLO._logout_session_ids_go fd store (sid :: rest) fail0
          = SLO._logout_session_ids_go fd store rest (fail0 + 1) := by
        rw [logout_go_cons_eq]
        unfold sessionRemovable at hrem'
        cases hg : SSOSessionCacheMem.get_session store sid with
        | none => rfl
        | some d =>
          rw [hg] at hrem'
          have hrem2 : (if d = [] then false else (fd d).isSome) = false := hrem'
          by_cases hd : d = []
          · simp [hd]
          · rw [if_neg hd] at hrem2
            cases hfd : fd d with
            | none => simp [hd, hfd]
            | some sess =>
              rw [hfd] at hrem2
              simp at hrem2
      rw [hstep, ih store (fail0 + 1) hnd', hfilter]
      simp only [List.length_cons]
      omega

/-- Claim C2: for a non-empty list of resolved session ids (with distinct
ids), `_logout_session_ids` returns exactly Success when every removal
succeeds, Responder when every removal fails, and PartialLogout when some
but not all fail. -/
theorem logout_session_ids_spec (fd : List (String × String) → Option SSOSessionRec)
    (store : CacheState SessVal) (sids : List String)
    (hne : sids ≠ []) (hnd : sids.Nodup) :
    (SLO._logout_session_ids fd store sids).1
      = (if (sids.filter (fun sid => ! sessionRemovable fd store sid)).length = 0
          then STATUS_SUCCESS
          else if (sids.filter (fun sid => ! sessionRemovable fd store sid)).length
              = sids.length
          then STATUS_RESPONDER
          else STATUS_PARTIAL_LOGOUT) := by
  have hgo := logout_go_spec fd sids store 0 hnd
  have hlist : sids ≠ [] := hne
  show (if (SLO._logout_session_ids_go fd store sids 0).1 ≠ 0 then
      if (SLO._logout_session_ids_go fd store sids 0).1 = sids.length then STATUS_RESPONDER
      else STATUS_PARTIAL_LOGOUT
    else STATUS_SUCCESS) = _
  rw [hgo]
  simp only [Nat.zero_add]
  split_ifs <;> first | rfl | omega

/-- Witness for `logout_session_ids_spec`: 3 resolved sessions of which 2
removals succeed and 1 fails give exactly PartialLogout. -/
theorem logout_session_ids_witness :
    (SLO._logout_session_ids (fun _ => some ⟨"r"⟩)
        (⟨[("s1", ⟨"u", [("a", "1")]⟩), ("s2", ⟨"u", [("a", "2")]⟩)], [], 100⟩ :
          CacheState SessVal) ["s1", "s2", "s3"]).1 = STATUS_PARTIAL_LOGOUT := by
  have h := logout_session_ids_spec (fun _ => some ⟨"r"⟩)
    (⟨[("s1", ⟨"u", [("a", "1")]⟩), ("s2", ⟨"u", [("a", "2")]⟩)], [], 100⟩ : CacheState SessVal)
    ["s1", "s2", "s3"] (by decide) (by decide)
  rw [h]
  rfl

/-- Claim C6 (spec-modelled): the session store operation
`get_sessions_for_user` returns exactly the session ids of all of the given
user's sessions, and the cookie-less logout path resolves its targets
through it after mapping the subject to a local user id. -/
theorem get_sessions_for_user_spec :
    (∀ (store : CacheState SessVal) (userId : Option String) (sid : String),
        sid ∈ SSOSessionCacheMem.get_sessions_for_user store userId ↔
          ∃ sv : SessVal, (sid, sv) ∈ store.data ∧ some sv.username = userId) ∧
      ∀ (find_local_id : String → Option String) (store : CacheState SessVal)
        (name_id : String),
        SLO.resolve_logout_session_ids find_local_id store name_id none
          = SSOSessionCacheMem.get_sessions_for_user store (find_local_id name_id) := by
  constructor
  · intro store userId sid
    unfold SSOSessionCacheMem.get_sessions_for_user
    constructor
    · intro h
      obtain ⟨e, he, heq⟩ := List.mem_map.mp h
      obtain ⟨hed, hp⟩ := List.mem_filter.mp he
      rcases e with ⟨s1, sv⟩
      have heq' : s1 = sid := heq
      subst heq'
      exact ⟨sv, hed, by simpa using hp⟩
    · rintro ⟨sv, hmem, husr⟩
      apply List.mem_map.mpr
      refine ⟨(sid, sv), ?_, rfl⟩
      apply List.mem_filter.mpr
      exact ⟨hmem, by simpa using husr⟩
  · intro find_local_id store name_id
    rfl

/-! ### Login-state ("ticket") store (loginstate.py, and the legacy copy in
login.py; idp.py imports `SSOLoginDataCache` from loginstate). -/

/-- The error classes of eduid_idp.error raised by the embedded code.
`Uncaught` stands for a Python exception that no handler catches. -/
inductive IdPError where
  | BadRequest (msg : String)
  | ServiceError (msg : String)
  | LoginTimeout (msg : String)
  | Uncaught (msg : String)
deriving DecidableEq

/-- A Python value that is either a string or an int (`data.get('FailCount', 0)`). -/
inductive PyVal where
  | str (s : String)
  | int (z : Int)
deriving DecidableEq

/-- External collaborators consumed by the ticket cache: the pysaml2 codec
(`IDP.parse_authn_request`, raising `UnravelError` or returning `None` on
bad input), metadata certs, redirect-signature verification, the sha1
hexdigest used by `ExpiringCache.key`, and the
`verify_request_signatures` configuration flag. -/
structure IdPContext where
  parse_authn_request : String → String → Except Unit (Option AuthnReq)
  certs : String → List String
  verify_redirect_signature : List (String × String) → String → Bool
  sha1hex : String → String
  verify_request_signatures : Bool

/-- `cgi.escape(s, quote=True)`: the four successive `str.replace` calls
amount to this character-wise map. -/
def cgi_escape (s : String) : String :=
  String.mk ((s.data.map (fun c =>
    if c = '&' then "&amp;".data
    else if c = '<' then "&lt;".data
    else if c = '>' then "&gt;".data
    else if c = '"' then "&quot;".data
    else [c])).flatten)

namespace loginstate

/-- `loginstate.SSOLoginData.__init__`. -/
structure SSOLoginData where
  _key : String
  _req_info : AuthnReq
  _SAMLRequest : String
  _RelayState : String
  _FailCount : PyVal
  _binding : String
deriving DecidableEq

/-- The `key` property: `escape(self._key, quote=True)`. -/
def SSOLoginData.key (t : SSOLoginData) : String := cgi_escape t._key

/-- `loginstate.SSOLoginDataCache._parse_SAMLRequest`: `UnravelError` and a
falsy parse both become BadRequest; a signed request is verified against
the issuer's certs only when `verify_request_signatures` is set. -/
def _parse_SAMLRequest (ctx : IdPContext) (info : List (String × String))
    (binding : String) : Except IdPError AuthnReq :=
  match dictGet "SAMLRequest" info with
  | none => .error (.Uncaught "KeyError: SAMLRequest")
  | some sr =>
    match ctx.parse_authn_request sr binding with
    | .error _ => .error (.BadRequest "No valid SAMLRequest found")
    | .ok none => .error (.BadRequest "No valid SAMLRequest found")
    | .ok (some req) =>
      if (dictGet "SigAlg" info).isSome && (dictGet "Signature" info).isSome then
        if ctx.verify_request_signatures then
          if (ctx.certs req.issuer).any (fun cert =>
              ctx.verify_redirect_signature info cert) then .ok req
          else .error (.BadRequest "SAML request signature verification failure")
        else .ok req
      else .ok req

/-- `loginstate.SSOLoginDataCache.create_ticket(data, binding, key)`. -/
def create_ticket (ctx : IdPContext) (data : List (String × String))
    (binding : Option String) (key : Option String) : Except IdPError SSOLoginData :=
  match binding with
  | none => .error (.ServiceError "Can't create IdP ticket with unknown binding")
  | some b =>
    if b = "" then .error (.ServiceError "Can't create IdP ticket with unknown binding")
    else
      match _parse_SAMLRequest ctx data b with
      | .error e => .error e
      | .ok req_info =>
        match (match key with
          | some k =>
            if k = "" then
              (match dictGet "SAMLRequest" data with
                | some sr => Except.ok (ctx.sha1hex sr)
                | none => Except.error (IdPError.Uncaught "KeyError: SAMLRequest"))
            else Except.ok k
          | none =>
            match dictGet "SAMLRequest" data with
            | some sr => Except.ok (ctx.sha1hex sr)
            | none => Except.error (IdPError.Uncaught "KeyError: SAMLRequest")) with
        | .error e => .error e
        | .ok k =>
          match dictGet "SAMLRequest" data with
          | none => .error (.Uncaught "KeyError: SAMLRequest")
          | some sr =>
            .ok { _key := k, _req_info := req_info, _SAMLRequest := sr,
                  _RelayState := (dictGet "RelayState" data).getD "",
                  _FailCount := (match dictGet "FailCount" data with
                    | some s => PyVal.str s
                    | none => PyVal.int 0),
                  _binding := b }

/-- `loginstate.SSOLoginDataCache.store_ticket(ticket)`:
`self._cache.add(ticket.key, ticket)` (and `return True`). -/
def store_ticket (t : SSOLoginData) (cache : CacheState SSOLoginData) (now : Int) :
    CacheState SSOLoginData :=
  ExpiringCache.add cache t.key t now

/-- `loginstate.SSOLoginDataCache.get_ticket(info, binding)` — the version
wired into the application by idp.py. The stored values here are always
`SSOLoginData` instances, so the `isinstance(_ticket, dict)` re-hydration
branch at the end never fires and is omitted. -/
def get_ticket (ctx : IdPContext) (cache : CacheState SSOLoginData)
    (info : List (String × String)) (binding : Option String) (now : Int) :
    Except IdPError (SSOLoginData × CacheState SSOLoginData) :=
  if info = [] then .error (.BadRequest "Bad request, please re-initiate login")
  else
    match (match dictGet "key" info with
      | some k => Except.ok k
      | none =>
        match dictGet "SAMLRequest" info with
        | some sr => Except.ok (ctx.sha1hex sr)
        | none =>
          Except.error (IdPError.BadRequest "Missing SAMLRequest, please re-initiate login")) with
    | .error e => .error e
    | .ok _key =>
      match ExpiringCache.get cache _key with
      | some t => .ok (t, cache)
      | none =>
        if (dictGet "key" info).isSome && (dictGet "SAMLRequest" info).isNone then
          .error (.ServiceError "Login state not found, please re-initiate login")
        else
          match create_ticket ctx info
            (if binding.isNone && (dictGet "binding" info).isSome then dictGet "binding" info
              else binding) (some _key) with
          | .error e => .error e
          | .ok t => .ok (t, store_ticket t cache now)

end loginstate

namespace login

/-- `login.SSOLoginData.__init__` (the legacy copy in login.py: no binding
field, `_FailCount = 0`, the raw `data` dict kept whole). -/
structure SSOLoginData where
  _key : String
  _req_info : AuthnReq
  _data : List (String × String)
  _FailCount : Int
deriving DecidableEq

/-- The legacy `key` property returns `self._key` unescaped. -/
def SSOLoginData.key (t : SSOLoginData) : String := t._key

/-- `login.SSOLoginDataCache._parse_SAMLRequest`: no try/except, so
`UnravelError` propagates uncaught and a falsy parse trips the
`assert isinstance` (AssertionError); the signature-failure path subscripts
the AuthnRequest object (`_req_info["SAMLRequest"]`), a TypeError, before
its BadRequest could be raised. -/
def _parse_SAMLRequest (ctx : IdPContext) (info : List (String × String))
    (binding : String) : Except IdPError AuthnReq :=
  match dictGet "SAMLRequest" info with
  | none => .error (.Uncaught "KeyError: SAMLRequest")
  | some sr =>
    match ctx.parse_authn_request sr binding with
    | .error _ => .error (.Uncaught "UnravelError")
    | .ok none => .error (.Uncaught "AssertionError")
    | .ok (some req) =>
      if (dictGet "SigAlg" info).isSome && (dictGet "Signature" info).isSome then
        if ctx.verify_request_signatures then
          if (ctx.certs req.issuer).any (fun cert =>
              ctx.verify_redirect_signature info cert) then .ok req
          else .error (.Uncaught "TypeError: AuthnRequest is not subscriptable")
        else .ok req
      else .ok req

/-- `login.SSOLoginDataCache.create_ticket(data, binding, key)`. -/
def create_ticket (ctx : IdPContext) (data : List (String × String))
    (binding : Option String) (key : Option String) : Except IdPError SSOLoginData :=
  match binding with
  | none => .error (.ServiceError "Can't create IdP ticket with unknown binding")
  | some b =>
    if b = "" then .error (.ServiceError "Can't create IdP ticket with unknown binding")
    else
      match _parse_SAMLRequest ctx data b with
      | .error e => .error e
      | .ok req_info =>
        match (match key with
          | some k =>
            if k = "" then
              (match dictGet "SAMLRequest" data with
                | some sr => Except.ok (ctx.sha1hex sr)
                | none => Except.error (IdPError.Uncaught "KeyError: SAMLRequest"))
            else Except.ok k
          | none =>
            match dictGet "SAMLRequest" data with
            | some sr => Except.ok (ctx.sha1hex sr)
            | none => Except.error (IdPError.Uncaught "KeyError: SAMLRequest")) with
        | .error e => .error e
        | .ok k => .ok { _key := k, _req_info := req_info, _data := data, _FailCount := 0 }

/-- `login.SSOLoginDataCache.store_ticket(ticket)`. -/
def store_ticket (t : SSOLoginData) (cache : CacheState SSOLoginData) (now : Int) :
    CacheState SSOLoginData :=
  ExpiringCache.add cache t.key t now

/-- `login.SSOLoginDataCache.get_ticket(info, binding)` — the legacy,
unwired version: any explicit-key miss raises LoginTimeout. -/
def get_ticket (ctx : IdPContext) (cache : CacheState SSOLoginData)
    (info : List (String × String)) (binding : Option String) (now : Int) :
    Except IdPError (SSOLoginData × CacheState SSOLoginData) :=
  if info = [] then .error (.BadRequest "Bad request, please re-initiate login")
  else
    match (match dictGet "key" info with
      | some k => Except.ok k
      | none =>
        match dictGet "SAMLRequest" info with
        | some sr => Except.ok (ctx.sha1hex sr)
        | none =>
          Except.error (IdPError.BadRequest "Missing SAMLRequest, please re-initiate login")) with
    | .error e => .error e
    | .ok _key =>
      match ExpiringCache.get cache _key with
      | some t => .ok (t, cache)
      | none =>
        if (dictGet "key" info).isSome then
          .error (.LoginTimeout "Missing IdP ticket, please re-initiate login")
        else
          match create_ticket ctx info binding (some _key) with
          | .error e => .error e
          | .ok t => .ok (t, store_ticket t cache now)

end login

/-- A concrete collaborator context whose codec accepts every request. -/
def ctx0 : IdPContext :=
  { parse_authn_request := fun _ _ => .ok (some ⟨"rid", false, "issuer"⟩)
  , certs := fun _ => []
  , verify_redirect_signature := fun _ _ => false
  , sha1hex := fun s => "sha1:" ++ s
  , verify_request_signatures := false }

/-- Counterexample to claim C5 as stated: against the ticket cache the
application actually wires in (loginstate.SSOLoginDataCache), a get_ticket
whose info carries an explicit 'key' "k1" that is not in the cache is not
always a hard failure — when a SAMLRequest is also present, a fresh ticket
is created and stored under that key; and in the key-only case the failure
is raised as ServiceError, not a login-timeout classification. -/
theorem get_ticket_key_miss_counterexample :
    ((loginstate.get_ticket ctx0 (ExpiringCache.empty loginstate.SSOLoginData 10)
        [("key", "k1"), ("SAMLRequest", "req")] (some "B") 0).toOption).isSome = true ∧
      ((loginstate.get_ticket ctx0 (ExpiringCache.empty loginstate.SSOLoginData 10)
        [("key", "k1"), ("SAMLRequest", "req")] (some "B") 0).toOption).map
          (fun p => (ExpiringCache.get p.2 "k1").isSome) = some true ∧
      loginstate.get_ticket ctx0 (ExpiringCache.empty loginstate.SSOLoginData 10)
        [("key", "k1")] (some "B") 0
        = .error (.ServiceError "Login state not found, please re-initiate login") :=
  ⟨rfl, rfl, rfl⟩

/-- Claim C5 (amended): a get_ticket whose info carries an explicit 'key'
not found in the ticket cache hard-fails only when no SAMLRequest
accompanies the key, and in the live loginstate cache the failure is
classified ServiceError (still distinct from the BadRequest used for
malformed input) with no new ticket created or stored; when a SAMLRequest
is also present, the miss creates and stores a fresh ticket under that key
instead. The legacy login.py cache raises LoginTimeout for any
explicit-key miss, as the claim originally stated. -/
theorem get_ticket_explicit_key_miss (ctx : IdPContext)
    (cacheLS : CacheState loginstate.SSOLoginData)
    (cacheL : CacheState login.SSOLoginData)
    (info : List (String × String)) (binding : Option String) (now : Int) (k : String)
    (hk : dictGet "key" info = some k) :
    (dictGet "SAMLRequest" info = none →
        dictGet k cacheLS.data = none →
        loginstate.get_ticket ctx cacheLS info binding now
          = .error (.ServiceError "Login state not found, please re-initiate login")) ∧
      (dictGet k cacheL.data = none →
        login.get_ticket ctx cacheL info binding now
          = .error (.LoginTimeout "Missing IdP ticket, please re-initiate login")) := by
  have hne : info ≠ [] := by
    intro h
    rw [h] at hk
    exact Option.noConfusion hk
  constructor
  · intro hsr hmiss
    simp [loginstate.get_ticket, ExpiringCache.get, hne, hk, hsr, hmiss]
  · intro hmiss
    simp [login.get_ticket, ExpiringCache.get, hne, hk, hmiss]

/-- Witness for `get_ticket_explicit_key_miss` at a concrete input. -/
theorem get_ticket_explicit_key_miss_witness :
    loginstate.get_ticket ctx0 (ExpiringCache.empty loginstate.SSOLoginData 7)
        [("key", "kk")] none 0
        = .error (.ServiceError "Login state not found, please re-initiate login") ∧
      login.get_ticket ctx0 (ExpiringCache.empty login.SSOLoginData 7)
        [("key", "kk")] none 0
        = .error (.LoginTimeout "Missing IdP ticket, please re-initiate login") :=
  ⟨(get_ticket_explicit_key_miss ctx0 (ExpiringCache.empty loginstate.SSOLoginData 7)
      (ExpiringCache.empty login.SSOLoginData 7) [("key", "kk")] none 0 "kk" rfl).1 rfl rfl,
   (get_ticket_explicit_key_miss ctx0 (ExpiringCache.empty loginstate.SSOLoginData 7)
      (ExpiringCache.empty login.SSOLoginData 7) [("key", "kk")] none 0 "kk" rfl).2 rfl⟩
